import Mathlib

/-!
Verification of the OptACC autotuner core (`tuner.py`, `tuner/methods/RSM.py`)
against its natural-language specification.

The Python code is shallowly embedded: the evaluation harness
(`gen_tuning_function` / `gen_testing_function` / `objective`), the heuristic
gate (`run_heuristic`), the CSV replay percentile function, and the grid
enumeration of `_tune_RSM` become Lean functions over explicit inputs.
External effects (process invocations, raw-run reports, result-sink writes)
are made explicit as a trace returned alongside each result.
-/

/-- A candidate configuration `(num_gangs, vector_length)` (`point.Point`).
Both coordinates are positive integers in every configuration the program
accepts, so they are modelled as naturals. -/
structure Point where
  num_gangs : ℕ
  vector_length : ℕ
deriving DecidableEq, Repr

/-- Outcome of evaluating one Point (`testresult.TestResult`): as in the
Python constructor `TestResult(point, average=None, stdev=None, error=None)`,
each numeric field is either present or absent, and a failure carries an
error string.  The numeric type `α` is `ℝ` for the live harness (whose
standard deviation is a square root) and `ℚ` where the code only moves
exact values around. -/
structure TestResult (α : Type) where
  point : Point
  average : Option α := none
  stdev : Option α := none
  error : Option String := none
deriving DecidableEq, Repr

/-- Trace of the externally visible effects of one harness call:
the environment passed to each compile-command invocation, the number of
executable invocations (consumed repetitions), the raw-run reports
(`output_writer.log_run`), and the results handed to the result sink
(`output_writer.add`). -/
structure Trace (α : Type) where
  compiles : List (List (String × String))
  executes : ℕ
  rawRuns : List (Point × α)
  adds : List (TestResult α)
deriving DecidableEq, Repr

/-- The empty effect trace: no compile, no execution, no report, no sink write. -/
def emptyTrace (α : Type) : Trace α := ⟨[], 0, [], []⟩

/-- The out-of-range error Result built at `tuner.py:308`
(`TestResult(x, error='Point out of range')`). -/
def outOfRange (α : Type) (x : Point) : TestResult α :=
  { point := x, error := some "Point out of range" }

/-- `objective` (`tuner.py:307-315`): check the gang bound, then the vector
bound; a point outside either bound returns the out-of-range Result with no
effects, otherwise the configured `run_test` function is called.  `run_test`
is a parameter because the code binds it to either the live tuning function
or the CSV replay function. -/
def objective {α : Type} (gmin gmax vmin vmax : ℕ)
    (run_test : Point → TestResult α × Trace α) (x : Point) :
    TestResult α × Trace α :=
  if x.num_gangs < gmin ∨ x.num_gangs > gmax then (outOfRange α x, emptyTrace α)
  else if x.vector_length < vmin ∨ x.vector_length > vmax then
    (outOfRange α x, emptyTrace α)
  else run_test x

/-! ## The live evaluation harness (`gen_tuning_function`, `tuner.py:96-192`) -/

/-- The environment dictionary passed to the compile command
(`tuner.py:107-115`): start from `{NUM_GANGS, VECTOR_LENGTH}` bound to the
candidate's values, then `env.update(os.environ)`.  A Python dict update
gives the *updating* mapping precedence on shared keys, so for lookup
purposes the result is the process environment with the two initial
bindings appended as fallbacks. -/
def buildEnv (outer : List (String × String)) (ng vl : ℕ) :
    List (String × String) :=
  outer ++ [("NUM_GANGS", toString ng), ("VECTOR_LENGTH", toString vl)]

/-- What the external world does on one invocation of the target executable:
the process exit code, and the timing extracted from its output by the
configured pattern (`None` when the pattern does not match). -/
structure RunOutcome (α : Type) where
  exit : ℤ
  timing : Option α
deriving DecidableEq, Repr

/-- Outcome of the repetition loop (`tuner.py:134-173`): the `result`
variable when the loop broke early with an error (`none` otherwise), the
accumulated `results` timings, the `log_run` raw-run reports in order, and
the number of executable invocations performed. -/
structure LoopOut (α : Type) where
  early : Option (TestResult α)
  timings : List α
  raw : List (Point × α)
  execs : ℕ
deriving DecidableEq, Repr

/-- The repetition loop of `gen_tuning_function` (`tuner.py:134-173`), one
list element per configured repetition.  Each iteration invokes the
executable; a non-zero exit with `ignore_exit` unset breaks with
`Executable failed`; a missing timing match breaks with the
timing-data-missing error (whose text depends on `kernel_timing`); a
successful iteration appends its timing and reports it to
`output_writer.log_run` before the next iteration runs. -/
def runLoop {α : Type} (ignore_exit kernel_timing : Bool) (x : Point) :
    List (RunOutcome α) → LoopOut α
  | [] => ⟨none, [], [], 0⟩
  | r :: rest =>
    if r.exit ≠ 0 ∧ ignore_exit = false then
      ⟨some { point := x, error := some "Executable failed" }, [], [], 1⟩
    else
      match r.timing with
      | none =>
        if kernel_timing then
          ⟨some { point := x, error := some "PGI kernel timing data missing" },
            [], [], 1⟩
        else
          ⟨some { point := x, error := some "Timing data missing" }, [], [], 1⟩
      | some t =>
        let o := runLoop ignore_exit kernel_timing x rest
        ⟨o.early, t :: o.timings, (x, t) :: o.raw, o.execs + 1⟩

/-- Aggregation of collected timings (`tuner.py:175-188`): no timings and no
recorded error is `No points tested`; otherwise the mean is `sum/n`, and the
standard deviation is `0` for a single sample or the square root of the
Bessel-corrected sample variance for `n ≥ 2`. -/
noncomputable def aggregate (x : Point) (results : List ℝ) : TestResult ℝ :=
  if results.isEmpty then { point := x, error := some "No points tested" }
  else
    let n := results.length
    let avg := results.sum / n
    let stdev : ℝ :=
      if n = 1 then 0
      else Real.sqrt ((results.map fun t => (t - avg) ^ 2).sum / ((n : ℝ) - 1))
    { point := x, average := some avg, stdev := some stdev }

/-- The live tuning function `fn` returned by `gen_tuning_function`
(`tuner.py:97-191`), with the external world explicit: `outer` is the
pre-existing process environment, `compileExit` the compile command's exit
code, and `runs` the executable's behavior on each of the
`len runs = repetitions` invocations.  Returns the Result together with the
effect trace (compile invocations with their environment, executions,
raw-run reports, result-sink writes). -/
noncomputable def tuningFn (ignore_exit kernel_timing : Bool)
    (outer : List (String × String)) (compileExit : ℤ)
    (runs : List (RunOutcome ℝ)) (x : Point) : TestResult ℝ × Trace ℝ :=
  let env := buildEnv outer x.num_gangs x.vector_length
  if compileExit ≠ 0 then
    let r : TestResult ℝ := { point := x, error := some "Compile command failed" }
    (r, ⟨[env], 0, [], [r]⟩)
  else
    let o := runLoop ignore_exit kernel_timing x runs
    let r := match o.early with
      | some r => r
      | none => aggregate x o.timings
    (r, ⟨[env], o.execs, o.raw, [r]⟩)

/-! ## The replay (CSV test-mode) harness
(`load_testing_data` / `gen_testing_function`, `tuner.py:197-271`) -/

/-- One loaded CSV row (`tuner.py:205-207`): the parsed `time` and `stdev`
floats and the raw `error msg` field.  `csv.DictReader` yields a string for
every field present in the row — the empty string for an empty field — and
`None` (here `none`) only when the row is short and the column is absent. -/
structure Row where
  time : ℚ
  stdev : ℚ
  errorMsg : Option String
deriving DecidableEq, Repr

/-- The `'{0} not in CSV data'` message built at `tuner.py:257`.  The exact
rendering of the point comes from `Point.__str__` in the external `point`
module; a tuple-style rendering is used here, and no theorem depends on the
text before ` not in CSV data`. -/
def notInCSVMsg (x : Point) : String :=
  "(" ++ toString x.num_gangs ++ ", " ++ toString x.vector_length ++
    ") not in CSV data"

/-- The replay evaluation function `fn` returned by `gen_testing_function`
(`tuner.py:249-270`) over loaded data `data`: a point absent from the data
is the not-in-CSV error; a point whose `error msg` field `is not None`
reproduces that message as the error (even when the message is the empty
string); only a point whose `error msg` field is absent (`None`) yields a
success carrying the recorded time and stdev.  Every produced Result is
handed to `output_writer.add`. -/
def testingFn (data : List (Point × Row)) (x : Point) :
    TestResult ℚ × Trace ℚ :=
  let r : TestResult ℚ :=
    match data.lookup x with
    | none => { point := x, error := some (notInCSVMsg x) }
    | some row =>
      match row.errorMsg with
      | some msg => { point := x, error := some msg }
      | none => { point := x, average := some row.time, stdev := some row.stdev }
  (r, ⟨[], 0, [], [r]⟩)

/-- The loop of `percentile` (`tuner.py:232-240`) over the loaded data
sorted ascending by time: count initial entries with time `≤ t`, stopping at
the first larger entry. -/
def countLeq (times : List ℚ) (t : ℚ) : ℕ :=
  (times.takeWhile fun u => u ≤ t).length

/-- `percentile` (`tuner.py:232-240`): `int(round(float(count)/n*100))` for
`count` entries of the sorted dataset at or below `t`.  Python 2's `round`
rounds halves away from zero, which for the nonnegative values arising here
agrees with Mathlib's `round` (halves up). -/
def percentile (times : List ℚ) (t : ℚ) : ℤ :=
  round ((countLeq times t : ℚ) / times.length * 100)

/-! ## The heuristic gate (`run_heuristic`, `tuner.py:276-298`) -/

/-- The four mutable bound fields of `TuningOptions` together with the
repetition count — the only configuration state `run_heuristic` reads or
writes. -/
structure HeurOpts where
  num_gangs_min : ℕ
  num_gangs_max : ℕ
  vector_length_min : ℕ
  vector_length_max : ℕ
  repetitions : ℕ
deriving DecidableEq, Repr

/-- `run_heuristic` (`tuner.py:276-298`): probe the three fixed points
`(256,128)`, `(1024,128)`, `(256,1024)`; if the repetition count is 1 or any
probe's stdev equals 0 (Python's `x.stdev == 0`, false when stdev is
`None`), return `(True, True)` at once.  Otherwise run the significance
test (`is_diff_significant`, external `stats` module, here the oracle
`sig`) twice and collapse the bounds of each non-significant dimension to
the baseline probe's coordinate.  Returns the pair, the updated options,
and the number of significance-test invocations. -/
def run_heuristic
    (sig : Option ℚ → Option ℚ → ℕ → Option ℚ → Option ℚ → ℕ → Bool)
    (obj : Point → TestResult ℚ) (opts : HeurOpts) :
    (Bool × Bool) × HeurOpts × ℕ :=
  let i := obj ⟨256, 128⟩
  let g := obj ⟨1024, 128⟩
  let v := obj ⟨256, 1024⟩
  let n := opts.repetitions
  if n = 1 ∨ i.stdev = some 0 ∨ g.stdev = some 0 ∨ v.stdev = some 0 then
    ((true, true), opts, 0)
  else
    let tune_num_gangs := sig i.average i.stdev n g.average g.stdev n
    let tune_vector_length := sig i.average i.stdev n v.average v.stdev n
    let opts1 :=
      if tune_num_gangs then opts
      else { opts with
              num_gangs_min := i.point.num_gangs
              num_gangs_max := i.point.num_gangs }
    let opts2 :=
      if tune_vector_length then opts1
      else { opts1 with
              vector_length_min := i.point.vector_length
              vector_length_max := i.point.vector_length }
    ((tune_num_gangs, tune_vector_length), opts2, 2)

/-! ## Grid enumeration (`_tune_RSM`'s generator, `tuner/methods/RSM.py:39-53`) -/

/-- The point generator of `_tune_RSM` (`RSM.py:41-52`): for step `mul`,
enumerate gang multiples from `ceil(num_gangs_min/mul)` to
`num_gangs_max // mul` and vector multiples likewise, yielding
`Point(max(mul*gang_mult,1), max(mul*vec_mult,1))` in row-major order.
`(a + mul - 1) / mul` is the ceiling of `a/mul` in natural division. -/
def gridPoints (num_gangs_min num_gangs_max vector_length_min
    vector_length_max mul : ℕ) : List Point :=
  let gmin := (num_gangs_min + mul - 1) / mul
  let gmax := num_gangs_max / mul
  let vmin := (vector_length_min + mul - 1) / mul
  let vmax := vector_length_max / mul
  (List.range' gmin (gmax + 1 - gmin)).flatMap fun gang_mult =>
    (List.range' vmin (vmax + 1 - vmin)).map fun vec_mult =>
      ⟨max (mul * gang_mult) 1, max (mul * vec_mult) 1⟩

/-! ## Result caching

Modelled from the spec: the per-search result cache lives in the search
method modules (`methods/nelder_mead.py`, `methods/exhaustive_search.py`),
which are not part of this repository snapshot — only their import and
invocation from `tuner.py` are.  The model follows the spec's words: "the
harness never evaluates the same Point twice within one search; a strategy
requesting an already-cached Point receives the cached Result". -/

/-- Modelled from the spec: one cache-mediated request.  A point already in
the cache returns its cached Result and does not invoke the underlying
evaluation; a new point is evaluated once and the Result stored. -/
def cacheStep (run_test : Point → TestResult ℚ)
    (cache : List (Point × TestResult ℚ)) (x : Point) :
    TestResult ℚ × List (Point × TestResult ℚ) × Bool :=
  match cache.lookup x with
  | some r => (r, cache, false)
  | none => (run_test x, cache ++ [(x, run_test x)], true)

/-- Modelled from the spec: process a sequence of requested points through
the cache, returning each request's Result paired with whether the
underlying evaluation was invoked for it, plus the final cache. -/
def cacheRun (run_test : Point → TestResult ℚ)
    (cache : List (Point × TestResult ℚ)) :
    List Point → List (TestResult ℚ × Bool) × List (Point × TestResult ℚ)
  | [] => ([], cache)
  | x :: reqs =>
    let s := cacheStep run_test cache x
    let rest := cacheRun run_test s.2.1 reqs
    ((s.1, s.2.2) :: rest.1, rest.2)

/-- Modelled from the spec: the points on which the underlying evaluation
was actually invoked, in request order, over a request sequence processed
through the cache. -/
def cacheInvoked (run_test : Point → TestResult ℚ)
    (cache : List (Point × TestResult ℚ)) : List Point → List Point
  | [] => []
  | x :: reqs =>
    let s := cacheStep run_test cache x
    if s.2.2 then x :: cacheInvoked run_test s.2.1 reqs
    else cacheInvoked run_test s.2.1 reqs

/-! ## Theorems -/

/-- Claim C1: for every Point whose gang count is outside
`[num_gangs_min, num_gangs_max]` or whose vector length is outside
`[vector_length_min, vector_length_max]`, `objective` returns the error
Result tagged `Point out of range` and performs no external effect at all:
the trace is empty, so no compile or execute process is invoked and no
repetition is consumed. -/
theorem C1_out_of_range_no_invocation {α : Type} (gmin gmax vmin vmax : ℕ)
    (run_test : Point → TestResult α × Trace α) (x : Point)
    (h : x.num_gangs < gmin ∨ x.num_gangs > gmax ∨
      x.vector_length < vmin ∨ x.vector_length > vmax) :
    objective gmin gmax vmin vmax run_test x = (outOfRange α x, emptyTrace α) ∧
      (outOfRange α x).error = some "Point out of range" ∧
      (emptyTrace α).compiles = [] ∧ (emptyTrace α).executes = 0 := by
  refine ⟨?_, rfl, rfl, rfl⟩
  by_cases h1 : x.num_gangs < gmin ∨ x.num_gangs > gmax
  · simp [objective, h1]
  · have h2 : x.vector_length < vmin ∨ x.vector_length > vmax := by tauto
    simp [objective, h1, h2]

theorem C1_witness :
    objective 2 1024 2 1024
        (fun p => (({ point := p, average := some 1, stdev := some 0 } :
          TestResult ℚ), emptyTrace ℚ)) ⟨1, 5⟩ =
      (outOfRange ℚ ⟨1, 5⟩, emptyTrace ℚ) :=
  (C1_out_of_range_no_invocation 2 1024 2 1024 _ ⟨1, 5⟩
    (Or.inl (by decide))).1

/-- Claim C10: `objective` either short-circuits an out-of-bounds Point to
the out-of-range Result with the empty effect trace — in particular the
result sink (`output_writer.add`) receives nothing for it — or hands the
Point to `run_test` unchanged, so every sink write is one performed by the
live evaluation function or the replay lookup function themselves. -/
theorem C10_sink_never_sees_out_of_range {α : Type} (gmin gmax vmin vmax : ℕ)
    (run_test : Point → TestResult α × Trace α) (x : Point) :
    objective gmin gmax vmin vmax run_test x =
      if x.num_gangs < gmin ∨ x.num_gangs > gmax ∨
          x.vector_length < vmin ∨ x.vector_length > vmax
      then (outOfRange α x, emptyTrace α)
      else run_test x := by
  by_cases h1 : x.num_gangs < gmin ∨ x.num_gangs > gmax
  · rw [objective, if_pos h1, if_pos (by tauto)]
  · by_cases h2 : x.vector_length < vmin ∨ x.vector_length > vmax
    · rw [objective, if_neg h1, if_pos h2, if_pos (by tauto)]
    · rw [objective, if_neg h1, if_neg h2, if_neg (by tauto)]

/-- A cache whose entries all record the underlying evaluation's answer
yields that answer for every request, and `cacheStep` preserves this. -/
theorem cacheRun_results_valid (rt : Point → TestResult ℚ) (reqs : List Point) :
    ∀ cache, (∀ p r, (p, r) ∈ cache → r = rt p) →
      ((cacheRun rt cache reqs).1.map fun s => s.1) = reqs.map rt := by
  induction reqs with
  | nil => intro cache _; rfl
  | cons x reqs ih =>
    intro cache hv
    cases hl : cache.lookup x with
    | some r =>
      have hx : r = rt x := by
        obtain ⟨l₁, l₂, rfl, -⟩ := List.lookup_eq_some_iff.1 hl
        exact hv x r (by simp)
      simp only [cacheRun, cacheStep, hl, List.map_cons]
      rw [ih cache hv, hx]
    | none =>
      simp only [cacheRun, cacheStep, hl, List.map_cons]
      rw [ih (cache ++ [(x, rt x)])]
      intro p r hp
      rcases List.mem_append.1 hp with hp | hp
      · exact hv p r hp
      · simp only [List.mem_singleton, Prod.mk.injEq] at hp
        rw [hp.2, hp.1]

/-- A point already present in the cache is never among the points the
underlying evaluation is invoked on. -/
theorem cacheInvoked_not_mem (rt : Point → TestResult ℚ) (reqs : List Point) :
    ∀ cache x, x ∈ cache.map Prod.fst → x ∉ cacheInvoked rt cache reqs := by
  induction reqs with
  | nil => intro cache x _; simp [cacheInvoked]
  | cons y reqs ih =>
    intro cache x hx
    cases hl : cache.lookup y with
    | some r =>
      simp only [cacheInvoked, cacheStep, hl]
      exact ih cache x hx
    | none =>
      have hy : y ∉ cache.map Prod.fst := by
        intro hmem
        obtain ⟨p, hp, rfl⟩ := List.mem_map.1 hmem
        have := List.lookup_eq_none_iff.1 hl p hp
        simp at this
      simp only [cacheInvoked, cacheStep, hl, if_pos]
      intro hmem
      rcases List.mem_cons.1 hmem with rfl | hmem
      · exact hy hx
      · exact ih (cache ++ [(y, rt y)]) x (by simp [hx]) hmem

/-- The invoked-points list produced from any cache has no duplicates. -/
theorem cacheInvoked_nodup (rt : Point → TestResult ℚ) (reqs : List Point) :
    ∀ cache, (cacheInvoked rt cache reqs).Nodup := by
  induction reqs with
  | nil => intro _; simp [cacheInvoked]
  | cons y reqs ih =>
    intro cache
    cases hl : cache.lookup y with
    | some r =>
      simp only [cacheInvoked, cacheStep, hl]
      exact ih cache
    | none =>
      simp only [cacheInvoked, cacheStep, hl, if_pos]
      refine List.nodup_cons.2 ⟨?_, ih _⟩
      exact cacheInvoked_not_mem rt reqs (cache ++ [(y, rt y)]) y (by simp)

/-- Claim C2 (spec-modelled: the per-search cache lives in the absent
search-method modules): processing any request sequence through the cache
from an empty start, every request — cached or not — receives exactly the
Result the underlying evaluation computes for its Point, and the list of
points on which the underlying compile/execute evaluation is actually
invoked has no duplicates: the same Point is never evaluated twice. -/
theorem C2_cache_never_reevaluates (rt : Point → TestResult ℚ)
    (reqs : List Point) :
    ((cacheRun rt [] reqs).1.map fun s => s.1) = reqs.map rt ∧
      (cacheInvoked rt [] reqs).Nodup :=
  ⟨cacheRun_results_valid rt reqs [] (by simp), cacheInvoked_nodup rt reqs []⟩

/-- Claim C3: aggregation of the collected raw timings (`tuner.py:175-188`).
For a nonempty collection the Result's mean is the sum divided by the count;
a single timing has standard deviation exactly 0; two or more timings have
the Bessel-corrected sample standard deviation
`sqrt(Σ(x_i - mean)^2 / (n-1))`; and an empty collection (with no earlier
error recorded) is the error `No points tested`. -/
theorem C3_aggregation (x : Point) (timings : List ℝ) :
    (timings = [] → aggregate x timings =
      { point := x, error := some "No points tested" }) ∧
    (timings ≠ [] →
      (aggregate x timings).average = some (timings.sum / timings.length) ∧
      (timings.length = 1 → (aggregate x timings).stdev = some 0) ∧
      (2 ≤ timings.length → (aggregate x timings).stdev =
        some (Real.sqrt ((timings.map fun t =>
          (t - timings.sum / timings.length) ^ 2).sum /
          ((timings.length : ℝ) - 1))))) := by
  constructor
  · intro h; subst h; rfl
  · intro h
    have he : timings.isEmpty = false := by
      cases timings with
      | nil => exact absurd rfl h
      | cons a l => rfl
    refine ⟨?_, ?_, ?_⟩
    · simp [aggregate, he]
    · intro h1; simp [aggregate, he, h1]
    · intro h2
      have h1 : timings.length ≠ 1 := by omega
      simp [aggregate, he, h1]

theorem C3_witness :
    (aggregate ⟨2, 2⟩ []).error = some "No points tested" ∧
      (aggregate ⟨2, 2⟩ [5]).stdev = some 0 ∧
      (aggregate ⟨2, 2⟩ [1, 3]).average = some 2 ∧
      (aggregate ⟨2, 2⟩ [1, 3]).stdev = some (Real.sqrt 2) := by
  have h0 := (C3_aggregation ⟨2, 2⟩ []).1 rfl
  have h1 := ((C3_aggregation ⟨2, 2⟩ [5]).2 (by simp)).2.1 rfl
  have h2 := ((C3_aggregation ⟨2, 2⟩ [1, 3]).2 (by simp)).1
  have h3 := ((C3_aggregation ⟨2, 2⟩ [1, 3]).2 (by simp)).2.2 (by simp)
  refine ⟨by rw [h0], h1, ?_, ?_⟩
  · rw [h2]; norm_num
  · rw [h3]; norm_num

/-- The repetition loop on a run sequence whose first `k-1` elements succeed
with the given timings and whose `k`-th element exits non-zero: with
`ignore_exit` unset it stops at the failure with the `Executable failed`
error, having executed exactly `k` times, collected the `k-1` timings, and
reported each of them to the raw-run reporter. -/
theorem runLoop_executable_failure (kt : Bool) (x : Point) (good : List ℝ)
    (bad : RunOutcome ℝ) (rest : List (RunOutcome ℝ)) (hbad : bad.exit ≠ 0) :
    runLoop false kt x ((good.map fun t => ⟨0, some t⟩) ++ bad :: rest) =
      ⟨some { point := x, error := some "Executable failed" }, good,
        good.map fun t => (x, t), good.length + 1⟩ := by
  induction good with
  | nil =>
    simp only [List.map_nil, List.nil_append, runLoop]
    rw [if_pos ⟨hbad, trivial⟩]
    simp
  | cons t good ih =>
    simp only [List.map_cons, List.cons_append, runLoop]
    rw [if_neg (by simp)]
    simp [ih]

/-- Claim C4: with `ignore_exit` disabled, if the executable exits non-zero
on repetition `k` of `n` (`k ≥ 2`, i.e. at least one earlier repetition
succeeded), the Point's Result is the error `Executable failed` with no
mean, repetitions `k+1..n` are not attempted (exactly `k` executions
happen), and each of the first `k-1` timings was reported to
`output_writer.log_run` — while the final aggregate is never computed
(the Result carries `average = none`). -/
theorem C4_executable_failure_aborts (kt : Bool)
    (outer : List (String × String)) (x : Point) (good : List ℝ)
    (bad : RunOutcome ℝ) (rest : List (RunOutcome ℝ))
    (_hgood : 1 ≤ good.length) (hbad : bad.exit ≠ 0) :
    tuningFn false kt outer 0
        ((good.map fun t => ⟨0, some t⟩) ++ bad :: rest) x =
      ({ point := x, error := some "Executable failed" },
        ⟨[buildEnv outer x.num_gangs x.vector_length], good.length + 1,
          good.map fun t => (x, t),
          [{ point := x, error := some "Executable failed" }]⟩) := by
  rw [tuningFn, if_neg (by simp)]
  rw [runLoop_executable_failure kt x good bad rest hbad]

theorem C4_witness :
    tuningFn false false [] 0
        [⟨0, some (3 : ℝ)⟩, (⟨1, none⟩ : RunOutcome ℝ)] ⟨2, 2⟩ =
      ({ point := ⟨2, 2⟩, error := some "Executable failed" },
        ⟨[buildEnv [] 2 2], 2, [(⟨2, 2⟩, (3 : ℝ))],
          [{ point := ⟨2, 2⟩, error := some "Executable failed" }]⟩) := by
  have h := C4_executable_failure_aborts false [] ⟨2, 2⟩ [3] ⟨1, none⟩ []
    (by simp) (by decide)
  simpa using h

/-- Claim C5 (amended): replay-mode lookup.  A Point absent from the
dataset is the not-in-CSV-data error; a Point present with a recorded error
message — `error msg is not None`, which includes the empty string —
reproduces that message as the error; only a Point whose error field is
absent from the row (`None`) yields a success carrying exactly the recorded
mean and stdev. -/
theorem C5_replay_lookup (data : List (Point × Row)) (x : Point) :
    (data.lookup x = none →
      (testingFn data x).1 = { point := x, error := some (notInCSVMsg x) }) ∧
    (∀ row msg, data.lookup x = some row → row.errorMsg = some msg →
      (testingFn data x).1 = { point := x, error := some msg }) ∧
    (∀ row, data.lookup x = some row → row.errorMsg = none →
      (testingFn data x).1 =
        { point := x, average := some row.time, stdev := some row.stdev }) := by
  refine ⟨?_, ?_, ?_⟩
  · intro h; simp [testingFn, h]
  · intro row msg h hm; simp [testingFn, h, hm]
  · intro row h hm; simp [testingFn, h, hm]

/-- Claim C5 as stated is false on the code: a Point present in the dataset
with an *empty* (rather than absent) error message does not produce a
success carrying the recorded mean and stdev — the `is not None` test takes
the error branch and reproduces the empty string as an error. -/
theorem C5_counterexample :
    (testingFn [(⟨2, 2⟩, ⟨1, 0, some ""⟩)] ⟨2, 2⟩).1 ≠
        ({ point := ⟨2, 2⟩, average := some 1, stdev := some 0 } :
          TestResult ℚ) ∧
      (testingFn [(⟨2, 2⟩, ⟨1, 0, some ""⟩)] ⟨2, 2⟩).1.error = some "" := by
  constructor
  · simp [testingFn]
  · rfl

theorem C5_witness :
    (testingFn [] ⟨2, 2⟩).1 =
        { point := ⟨2, 2⟩, error := some (notInCSVMsg ⟨2, 2⟩) } ∧
      (testingFn [(⟨2, 2⟩, ⟨1, 0, some "boom"⟩)] ⟨2, 2⟩).1 =
        { point := ⟨2, 2⟩, error := some "boom" } ∧
      (testingFn [(⟨2, 2⟩, ⟨1, 0, none⟩)] ⟨2, 2⟩).1 =
        { point := ⟨2, 2⟩, average := some 1, stdev := some 0 } :=
  ⟨(C5_replay_lookup [] ⟨2, 2⟩).1 rfl,
    (C5_replay_lookup [(⟨2, 2⟩, ⟨1, 0, some "boom"⟩)] ⟨2, 2⟩).2.1
      ⟨1, 0, some "boom"⟩ "boom" (by decide) rfl,
    (C5_replay_lookup [(⟨2, 2⟩, ⟨1, 0, none⟩)] ⟨2, 2⟩).2.2
      ⟨1, 0, none⟩ (by decide) rfl⟩

/-- Claim C6: if the configured repetition count is 1, or any of the three
probe Results has standard deviation exactly 0, `run_heuristic` returns
`(True, True)` (both dimensions worth tuning) without invoking the
significance test (0 invocations) and with the configuration — in
particular all four bounds fields — unchanged, regardless of the probes'
mean values. -/
theorem C6_heuristic_skip
    (sig : Option ℚ → Option ℚ → ℕ → Option ℚ → Option ℚ → ℕ → Bool)
    (obj : Point → TestResult ℚ) (opts : HeurOpts)
    (h : opts.repetitions = 1 ∨ (obj ⟨256, 128⟩).stdev = some 0 ∨
      (obj ⟨1024, 128⟩).stdev = some 0 ∨ (obj ⟨256, 1024⟩).stdev = some 0) :
    run_heuristic sig obj opts = ((true, true), opts, 0) := by
  simp only [run_heuristic]
  rw [if_pos h]

theorem C6_witness :
    run_heuristic (fun _ _ _ _ _ _ => false)
        (fun p => ⟨p, some (p.num_gangs : ℚ), some 0, none⟩)
        ⟨2, 1024, 2, 1024, 10⟩ =
      ((true, true), ⟨2, 1024, 2, 1024, 10⟩, 0) :=
  C6_heuristic_skip _ _ _ (Or.inr (Or.inl rfl))

/-- The natural-division formula `(a + b - 1) / b` used by the embedding is
the ceiling of the rational `a / b` (for `b ≥ 1`), matching Python's
`int(math.ceil(a / float(b)))`. -/
theorem ceil_formula_eq (a b : ℕ) (hb : 1 ≤ b) :
    ⌈(a : ℚ) / b⌉₊ = (a + b - 1) / b := by
  have key : ∀ i : ℕ, (a + b - 1) / b ≤ i ↔ ⌈(a : ℚ) / b⌉₊ ≤ i := by
    intro i
    rw [Nat.ceil_le, div_le_iff₀ (show (0 : ℚ) < b by exact_mod_cast hb),
      Nat.div_le_iff_le_mul_add_pred hb,
      show ((i : ℚ) * b) = ((b * i : ℕ) : ℚ) by push_cast; ring, Nat.cast_le]
    omega
  exact le_antisymm ((key _).1 le_rfl) ((key _).2 le_rfl)

/-- Membership in the grid enumeration, characterized exactly as the claim
states it: the points `(max(g·i,1), max(g·j,1))` for `ceil(min/g) ≤ i ≤
floor(max/g)` in each dimension. -/
theorem gridPoints_mem (gn gx vn vx mul : ℕ) (hmul : 1 ≤ mul) (p : Point) :
    p ∈ gridPoints gn gx vn vx mul ↔
      ∃ i j : ℕ, ⌈(gn : ℚ) / mul⌉₊ ≤ i ∧ i ≤ ⌊(gx : ℚ) / mul⌋₊ ∧
        ⌈(vn : ℚ) / mul⌉₊ ≤ j ∧ j ≤ ⌊(vx : ℚ) / mul⌋₊ ∧
        p = ⟨max (mul * i) 1, max (mul * j) 1⟩ := by
  rw [show ⌊(gx : ℚ) / mul⌋₊ = gx / mul from Nat.floor_div_eq_div gx mul,
    show ⌊(vx : ℚ) / mul⌋₊ = vx / mul from Nat.floor_div_eq_div vx mul,
    ceil_formula_eq gn mul hmul, ceil_formula_eq vn mul hmul]
  simp only [gridPoints, List.mem_flatMap, List.mem_map, List.mem_range'_1]
  constructor
  · rintro ⟨i, ⟨hi1, hi2⟩, j, ⟨hj1, hj2⟩, rfl⟩
    exact ⟨i, j, by omega, by omega, by omega, by omega, rfl⟩
  · rintro ⟨i, j, h1, h2, h3, h4, rfl⟩
    exact ⟨i, by omega, j, by omega, rfl⟩

/-- The grid enumeration contains no duplicate Point when the step and both
bound minima are positive (every enumerated multiple is then at least 1, so
the floor-at-1 clamp never merges two multiples). -/
theorem gridPoints_nodup (gn gx vn vx mul : ℕ) (hmul : 1 ≤ mul)
    (hgn : 1 ≤ gn) (hvn : 1 ≤ vn) :
    (gridPoints gn gx vn vx mul).Nodup := by
  have hdiv : ∀ a : ℕ, 1 ≤ a → 1 ≤ (a + mul - 1) / mul := by
    intro a ha
    rw [Nat.le_div_iff_mul_le (by omega)]
    omega
  simp only [gridPoints]
  refine List.nodup_flatMap.2 ⟨?_, ?_⟩
  · intro i _
    refine List.Nodup.map_on ?_ (List.nodup_range' _ _)
    intro j1 hj1 j2 hj2 heq
    have hb1 : 1 ≤ j1 := le_trans (hdiv vn hvn) (List.mem_range'_1.1 hj1).1
    have hb2 : 1 ≤ j2 := le_trans (hdiv vn hvn) (List.mem_range'_1.1 hj2).1
    have := congrArg Point.vector_length heq
    simp only at this
    have h1 : 1 ≤ mul * j1 := by simpa using Nat.mul_le_mul hmul hb1
    have h2 : 1 ≤ mul * j2 := by simpa using Nat.mul_le_mul hmul hb2
    rw [max_eq_left h1, max_eq_left h2] at this
    exact Nat.eq_of_mul_eq_mul_left (by omega) this
  · refine (List.pairwise_lt_range' _ _).imp_of_mem ?_
    intro i1 i2 hm1 hm2 hlt p hp1 hp2
    have hb1 : 1 ≤ i1 := le_trans (hdiv gn hgn) (List.mem_range'_1.1 hm1).1
    have hb2 : 1 ≤ i2 := le_trans (hdiv gn hgn) (List.mem_range'_1.1 hm2).1
    obtain ⟨j1, -, rfl⟩ := List.mem_map.1 hp1
    obtain ⟨j2, -, heq⟩ := List.mem_map.1 hp2
    have := congrArg Point.num_gangs heq
    simp only at this
    have h1 : 1 ≤ mul * i1 := by simpa using Nat.mul_le_mul hmul hb1
    have h2 : 1 ≤ mul * i2 := by simpa using Nat.mul_le_mul hmul hb2
    rw [max_eq_left h2, max_eq_left h1] at this
    have : i2 = i1 := Nat.eq_of_mul_eq_mul_left (by omega) this
    omega

/-- Claim C7: the grid enumeration of `_tune_RSM` with step `mul` over
bounds `[gn,gx] × [vn,vx]` yields exactly the Points
`(max(mul·i,1), max(mul·j,1))` for the integer pairs `(i,j)` with
`ceil(gn/mul) ≤ i ≤ floor(gx/mul)` and `ceil(vn/mul) ≤ j ≤ floor(vx/mul)`,
each exactly once; in particular for bounds `[2,1024] × [2,1024]` with step
256 it is the 16-point cross product of the multiples `{1,2,3,4}` of 256 in
each dimension. -/
theorem C7_grid_enumeration (gn gx vn vx mul : ℕ)
    (hmul : 1 ≤ mul) (hgn : 1 ≤ gn) (hvn : 1 ≤ vn) :
    (gridPoints gn gx vn vx mul).Nodup ∧
      (∀ p : Point, p ∈ gridPoints gn gx vn vx mul ↔
        ∃ i j : ℕ, ⌈(gn : ℚ) / mul⌉₊ ≤ i ∧ i ≤ ⌊(gx : ℚ) / mul⌋₊ ∧
          ⌈(vn : ℚ) / mul⌉₊ ≤ j ∧ j ≤ ⌊(vx : ℚ) / mul⌋₊ ∧
          p = ⟨max (mul * i) 1, max (mul * j) 1⟩) ∧
      gridPoints 2 1024 2 1024 256 =
        [⟨256, 256⟩, ⟨256, 512⟩, ⟨256, 768⟩, ⟨256, 1024⟩,
          ⟨512, 256⟩, ⟨512, 512⟩, ⟨512, 768⟩, ⟨512, 1024⟩,
          ⟨768, 256⟩, ⟨768, 512⟩, ⟨768, 768⟩, ⟨768, 1024⟩,
          ⟨1024, 256⟩, ⟨1024, 512⟩, ⟨1024, 768⟩, ⟨1024, 1024⟩] :=
  ⟨gridPoints_nodup gn gx vn vx mul hmul hgn hvn,
    fun p => gridPoints_mem gn gx vn vx mul hmul p, by decide⟩

theorem C7_witness :
    (gridPoints 2 1024 2 1024 256).Nodup ∧
      (⟨512, 768⟩ : Point) ∈ gridPoints 2 1024 2 1024 256 :=
  ⟨(C7_grid_enumeration 2 1024 2 1024 256 (by decide) (by decide)
      (by decide)).1,
    ((C7_grid_enumeration 2 1024 2 1024 256 (by decide) (by decide)
      (by decide)).2.1 ⟨512, 768⟩).2 ⟨2, 3,
        by rw [ceil_formula_eq 2 256 (by omega)]; decide,
        by rw [Nat.floor_div_eq_div]; decide,
        by rw [ceil_formula_eq 2 256 (by omega)]; decide,
        by rw [Nat.floor_div_eq_div]; decide, by decide⟩⟩

/-- The break-at-first-larger count is monotone in the threshold: a looser
threshold keeps at least as long an initial run of the scan. -/
theorem countLeq_mono (times : List ℚ) {m1 m2 : ℚ} (h : m1 ≤ m2) :
    countLeq times m1 ≤ countLeq times m2 := by
  induction times with
  | nil => exact le_refl _
  | cons u l ih =>
    unfold countLeq at *
    rw [List.takeWhile_cons, List.takeWhile_cons]
    by_cases hu : u ≤ m1
    · rw [if_pos (by simpa using hu), if_pos (by simpa using le_trans hu h)]
      simpa using ih
    · rw [if_neg (by simpa using hu)]
      simp

/-- Claim C8 as stated is false on the code: for the dataset with times
`[1, 2]` and means `m1 = 1 < m2 = 2`, the percentile assigned to `m1` (50)
*is* smaller than or equal to the percentile assigned to `m2` (100),
contradicting "the percentile assigned to m1 is never smaller than or equal
to the percentile assigned to m2". -/
theorem C8_counterexample :
    (1 : ℚ) < 2 ∧ percentile [1, 2] 1 ≤ percentile [1, 2] 2 := by
  constructor
  · norm_num
  · show round ((countLeq [1, 2] 1 : ℚ) / ([1, 2] : List ℚ).length * 100) ≤
      round ((countLeq [1, 2] 2 : ℚ) / ([1, 2] : List ℚ).length * 100)
    norm_num [countLeq, List.takeWhile, round_eq]

/-- Claim C8 (amended): the percentile function is monotone nondecreasing —
for any two means `m1 < m2` over a fixed dataset, the percentile assigned
to `m1` is never *larger* than the percentile assigned to `m2`. -/
theorem C8_percentile_monotone (times : List ℚ) (m1 m2 : ℚ) (h : m1 < m2) :
    percentile times m1 ≤ percentile times m2 := by
  unfold percentile
  have hc := countLeq_mono times (le_of_lt h)
  rw [round_eq, round_eq]
  apply Int.floor_mono
  have hd : (countLeq times m1 : ℚ) / times.length ≤
      (countLeq times m2 : ℚ) / times.length :=
    div_le_div_of_nonneg_right (by exact_mod_cast hc) (by positivity)
  nlinarith [hd]

theorem C8_witness : percentile [1, 2, 5] 1 ≤ percentile [1, 2, 5] 3 :=
  C8_percentile_monotone [1, 2, 5] 1 3 (by norm_num)

/-- Claim C9: the environment actually handed to the compile command.  With
an empty pre-existing environment, `NUM_GANGS` and `VECTOR_LENGTH` resolve
to the candidate's values; but because `env.update(os.environ)` gives the
pre-existing process environment precedence, a pre-existing `NUM_GANGS`
binding (here `"7"`) overrides the candidate's gang count `256`, so the
claimed property fails for such environments.  The final conjunct ties
`buildEnv` to the harness: every compile invocation recorded by `tuningFn`
carries exactly this environment. -/
theorem C9_environment_override :
    (buildEnv [("NUM_GANGS", "7")] 256 128).lookup "NUM_GANGS" = some "7" ∧
      (buildEnv [] 256 128).lookup "NUM_GANGS" = some "256" ∧
      (buildEnv [] 256 128).lookup "VECTOR_LENGTH" = some "128" ∧
      ∀ (ie kt : Bool) (outer : List (String × String)) (ce : ℤ)
        (runs : List (RunOutcome ℝ)) (x : Point),
        (tuningFn ie kt outer ce runs x).2.compiles =
          [buildEnv outer x.num_gangs x.vector_length] := by
  refine ⟨rfl, rfl, rfl, fun ie kt outer ce runs x => ?_⟩
  rw [tuningFn]
  by_cases h : ce ≠ 0
  · rw [if_pos h]
  · rw [if_neg h]
